import Mathlib

/-!
Shallow embedding of the split-expense ledger (Django app `core.split`).

Monetary amounts are modelled as integer cents (`Int`): every persisted
amount column is a `decimal_places=2` field, so a stored value is an exact
multiple of 0.01.  User, group, expense, split and settlement primary keys
are `Nat`.  Percentages (a `DecimalField(max_digits=5, decimal_places=2)`)
are modelled as `Rat`.

Each definition carries a doc comment naming the source construct it
embeds (file and symbol of the repository under verification).
-/

namespace SplitExpense

/-- Expense.ExpenseType choices (src/core/split/models.py, `Expense.ExpenseType`). -/
inductive ExpenseType where
  | personal
  | group
deriving DecidableEq

/-- ExpenseSplit.SplitType choices (src/core/split/models.py, `ExpenseSplit.SplitType`). -/
inductive SplitType where
  | equal
  | exact
  | percentage
  | shares
deriving DecidableEq

/-- Group model (src/core/split/models.py, `Group`): creator, member set,
currency, soft-delete flag `is_active`. -/
structure Group where
  id : Nat
  name : String
  description : String
  createdBy : Nat
  members : List Nat
  defaultCurrency : String
  isActive : Bool
deriving DecidableEq

/-- Expense model (src/core/split/models.py, `Expense`): the amount is the
MoneyField value in cents, `groupId` is the nullable group foreign key. -/
structure Expense where
  id : Nat
  description : String
  amount : Int
  expenseType : ExpenseType
  user : Nat
  groupId : Option Nat
  paidBy : Nat
  category : Nat
  date : Nat
  notes : String
deriving DecidableEq

/-- ExpenseSplit model (src/core/split/models.py, `ExpenseSplit`): one
allocation of an expense to a user, with the `is_settled` closed flag. -/
structure Split where
  id : Nat
  expenseId : Nat
  userId : Nat
  splitType : SplitType
  amount : Int
  percentage : Option Rat
  shares : Option Nat
  isSettled : Bool
deriving DecidableEq

/-- Settlement model (src/core/split/models.py, `Settlement`): a payment
record; `expenseSplits` is the many-to-many association to the allocations
being settled (model field `expense_splits`), stored as split ids. -/
structure Settlement where
  id : Nat
  groupId : Nat
  paidBy : Nat
  paidTo : Nat
  amount : Int
  settlementDate : Nat
  notes : String
  paymentMethod : String
  expenseSplits : List Nat
deriving DecidableEq

/-- The persistent store: the four tables plus the primary-key sequences
used when new split/settlement rows are inserted. -/
structure State where
  groups : List Group
  expenses : List Expense
  splits : List Split
  settlements : List Settlement
  splitSeq : Nat
  settlementSeq : Nat
deriving DecidableEq

/-- ORM query `ExpenseSplit.objects.filter(expense=eid)` (the `splits`
related manager of an expense). -/
def splitsOf (st : State) (eid : Nat) : List Split :=
  st.splits.filter (fun s => decide (s.expenseId = eid))

/-- Primary-key lookup of an expense row. -/
def findExpense (st : State) (eid : Nat) : Option Expense :=
  st.expenses.find? (fun e => decide (e.id = eid))

/-- Group of a split through its expense: the ORM join `expense__group`
used by the balance queries in src/core/split/views.py. -/
def splitGroupId (st : State) (s : Split) : Option Nat :=
  (findExpense st s.expenseId).bind (fun e => e.groupId)

/-- Condition `group=g, expense_type=GROUP` on an expense row. -/
def isGroupExpenseIn (gid : Nat) (e : Expense) : Bool :=
  decide (e.groupId = some gid) && decide (e.expenseType = ExpenseType.group)

/-- Aggregate `Expense.objects.filter(group=g, paid_by=m,
expense_type=GROUP).aggregate(Sum("amount"))` used by both balance
computations (src/core/split/views.py lines 56 and 136). -/
def paidOf (st : State) (gid m : Nat) : Int :=
  ((st.expenses.filter (fun e => isGroupExpenseIn gid e && decide (e.paidBy = m))).map
    (fun e => e.amount)).sum

/-- Aggregate `ExpenseSplit.objects.filter(expense__group=g,
user=m).aggregate(Sum("amount"))` — ALL_TIME owed, no settled filter
(src/core/split/views.py, `GroupDetailView.calculate_group_balances`). -/
def owedAllOf (st : State) (gid m : Nat) : Int :=
  ((st.splits.filter (fun s =>
    (decide (splitGroupId st s = some gid) && decide (s.userId = m)))).map
    (fun s => s.amount)).sum

/-- Aggregate `ExpenseSplit.objects.filter(expense__group=g, user=m,
is_settled=False).aggregate(Sum("amount"))` — OUTSTANDING owed
(src/core/split/views.py, `DashboardView.calculate_user_balances`). -/
def owedOpenOf (st : State) (gid m : Nat) : Int :=
  ((st.splits.filter (fun s =>
    (decide (splitGroupId st s = some gid) && decide (s.userId = m)) && !s.isSettled)).map
    (fun s => s.amount)).sum

/-- One row of the per-member balance dictionary built by
`GroupDetailView.calculate_group_balances`. -/
structure MemberBalance where
  member : Nat
  paid : Int
  owed : Int
  balance : Int
deriving DecidableEq

/-- GroupDetailView.calculate_group_balances (src/core/split/views.py lines
127-147): per member, paid, owed over ALL splits, and balance = paid − owed.
The Python dict keyed by member is modelled as a list of records in member
order. -/
def calculate_group_balances (st : State) (g : Group) : List MemberBalance :=
  g.members.map (fun m =>
    { member := m
      paid := paidOf st g.id m
      owed := owedAllOf st g.id m
      balance := paidOf st g.id m - owedAllOf st g.id m })

/-- One entry of the dashboard balance list built by
`DashboardView.calculate_user_balances`. -/
structure UserBalance where
  groupId : Nat
  balance : Int
  status : String
deriving DecidableEq

/-- DashboardView.calculate_user_balances (src/core/split/views.py lines
47-70): over the active groups containing the user, paid minus OUTSTANDING
owed; an entry is appended only when the balance is nonzero. -/
def calculate_user_balances (st : State) (u : Nat) : List UserBalance :=
  (st.groups.filter (fun g => decide (u ∈ g.members) && g.isActive)).filterMap
    (fun g =>
      let paid := paidOf st g.id u
      let owed := owedOpenOf st g.id u
      let balance := paid - owed
      if balance ≠ 0 then
        some { groupId := g.id, balance := balance
               status := if 0 < balance then "owed" else "owes" }
      else none)

/-- Round-half-even integer division: the integer of cents nearest to
a / n, ties going to the even quotient.  This is the quantization applied
when Django persists the Python `Decimal` value
`per_person = expense_amount / num_members` into the 2-decimal-place
MoneyField column (`django.db.backends.utils.format_number`, default
Decimal rounding ROUND_HALF_EVEN). -/
def divRoundHalfEven (a n : Nat) : Nat :=
  let q := a / n
  let r := a % n
  if 2 * r < n then q
  else if n < 2 * r then q + 1
  else if q % 2 = 0 then q else q + 1

/-- Rows `ExpenseSplit.objects.create(expense=…, user=member,
split_type=…, amount=Money(per_person, …))` created by the EQUAL branch of
`SimpleSplitForm.save` (src/core/split/forms.py lines 304-315), one per
selected member, with consecutive fresh primary keys. -/
def mkEqualSplits (eid : Nat) (amt : Int) (stype : SplitType) : Nat → List Nat → List Split
  | _, [] => []
  | sid, m :: rest =>
      { id := sid, expenseId := eid, userId := m, splitType := stype
        amount := amt, percentage := none, shares := none, isSettled := false }
        :: mkEqualSplits eid amt stype (sid + 1) rest

/-- SimpleSplitForm.save (src/core/split/forms.py lines 287-317): delete
every existing split of the expense, then — only for the EQUAL split type —
create one split of `expense_amount / num_members` per selected member.
Any other split type creates nothing and the method returns the empty
list.  Expense amounts are validated positive, so `Int.toNat` is exact. -/
def simpleSplitSave (st : State) (exp : Expense) (stype : SplitType)
    (members : List Nat) : List Split × State :=
  let remaining := st.splits.filter (fun s => !decide (s.expenseId = exp.id))
  if stype = SplitType.equal then
    let perPerson : Int := ((divRoundHalfEven exp.amount.toNat members.length : Nat) : Int)
    let newSplits := mkEqualSplits exp.id perPerson stype st.splitSeq members
    (newSplits,
      { st with splits := remaining ++ newSplits
                splitSeq := st.splitSeq + members.length })
  else
    ([], { st with splits := remaining })

/-- Validation of SimpleSplitForm: `members` is a required
ModelMultipleChoiceField whose queryset is the group member set, so the
form is valid exactly when the selection is non-empty and every selected
user is a group member (src/core/split/forms.py lines 271-285). -/
def simpleSplitValid (g : Group) (members : List Nat) : Bool :=
  !members.isEmpty && members.all (fun m => decide (m ∈ g.members))

/-- ExpenseCreateView.form_valid split handling (src/core/split/views.py
lines 301-316): build a SimpleSplitForm and call `save` only when
`is_valid()`; an invalid split form performs no split write.  Returns the
validity flag, the created splits and the resulting store. -/
def allocate (st : State) (g : Group) (exp : Expense) (stype : SplitType)
    (members : List Nat) : Bool × List Split × State :=
  if simpleSplitValid g members then
    let r := simpleSplitSave st exp stype members
    (true, r.1, r.2)
  else
    (false, [], st)

/-- Validation error as raised by the forms: Django distinguishes errors
attached to a named field (`ValidationError(\x7b"field": msg\x7d)`) from
form- or formset-level errors (`ValidationError(msg)`); the former carry
`field = some name`, the latter `field = none`. -/
structure Verror where
  field : Option String
  msg : String
deriving DecidableEq

/-- Error raised by SettlementForm.clean when payer equals payee
(src/core/split/forms.py line 362); this is the spec ConflictError for
self-settlement.  It is a form-level error, not attached to a field. -/
def selfSettlementError : Verror :=
  { field := none, msg := "You cannot settle with yourself." }

/-- SettlementForm validation (src/core/split/forms.py lines 341-364):
the paid_by / paid_to querysets are restricted to the group members, the
amount field carries the model validator MinValueValidator(0.01) — one
cent — and `clean` rejects payer = payee.  Returns the first error in
field order, or `none` when the form is valid. -/
def validateSettlement (members : List Nat) (paidBy paidTo : Nat) (amt : Int) :
    Option Verror :=
  if paidBy ∉ members then
    some { field := some "paid_by", msg := "Select a valid choice." }
  else if paidTo ∉ members then
    some { field := some "paid_to", msg := "Select a valid choice." }
  else if amt < 1 then
    some { field := some "amount", msg := "Ensure this value is greater than or equal to 0.01." }
  else if paidBy = paidTo then
    some selfSettlementError
  else
    none

/-- SettlementForm.save plus SettlementCreateView (src/core/split/forms.py
lines 366-374): on valid input a Settlement row is inserted with the view
group.  The form exposes no `expense_splits` field, so `refs` models the
model-level many-to-many content of the created settlement (the only way
the Settlement–allocation association is ever populated); no code path of
the repository writes `ExpenseSplit.is_settled`. -/
def recordSettlement (st : State) (g : Group) (paidBy paidTo : Nat) (amt : Int)
    (sdate : Nat) (method notes : String) (refs : List Nat) :
    Option Verror × State :=
  match validateSettlement g.members paidBy paidTo amt with
  | some e => (some e, st)
  | none =>
      (none,
        { st with
            settlements := st.settlements ++
              [{ id := st.settlementSeq, groupId := g.id, paidBy := paidBy
                 paidTo := paidTo, amount := amt, settlementDate := sdate
                 notes := notes, paymentMethod := method, expenseSplits := refs }]
            settlementSeq := st.settlementSeq + 1 })

/-- One cleaned row of the split formset (`ExpenseSplitForm` cleaned data):
user, optional exact amount (cents), optional percentage, optional share
count, and the formset DELETE flag. -/
structure SplitFormRow where
  user : Nat
  amount : Option Int
  percentage : Option Rat
  shares : Option Nat
  deleteFlag : Bool
deriving DecidableEq

/-- Duplicate detection of the loop `if user in users: raise` in
ExpenseSplitFormSet.clean. -/
def dupUser : List Nat → Bool
  | [] => false
  | u :: rest => decide (u ∈ rest) || dupUser rest

/-- Error `Each user can only be added once.` raised by
ExpenseSplitFormSet.clean — a formset-level ValidationError. -/
def duplicateUserError : Verror :=
  { field := none, msg := "Each user can only be added once." }

/-- Error raised when percentages do not total 100% — a formset-level
ValidationError, not attached to any field; the source message also
interpolates the offending total. -/
def percentageTotalError : Verror :=
  { field := none, msg := "Percentages must add up to 100%." }

/-- Error raised when EXACT amounts do not total the expense amount — a
formset-level ValidationError; the source message also interpolates both
totals. -/
def exactTotalError : Verror :=
  { field := none, msg := "Split amounts must equal expense amount." }

/-- ExpenseSplitFormSet.clean (src/core/split/forms.py lines 178-224):
skip deleted rows, reject duplicate users, accumulate totals (falsy —
absent or zero — values are skipped, which leaves the sums unchanged),
then, when the formset has an expense, compare the EXACT total with the
expense amount and the PERCENTAGE total with 100.00, both with tolerance
0.01 (one cent, 1/100 percent). -/
def formsetClean (stype : SplitType) (expenseAmount : Option Int)
    (rows : List SplitFormRow) : Option Verror :=
  let act := rows.filter (fun f => !f.deleteFlag)
  if dupUser (act.map (fun f => f.user)) then
    some duplicateUserError
  else
    let totalAmount : Int := (act.map (fun f => f.amount.getD 0)).sum
    let totalPercentage : Rat := (act.map (fun f => f.percentage.getD 0)).sum
    match expenseAmount with
    | none => none
    | some ea =>
        if stype = SplitType.exact then
          if 1 < |totalAmount - ea| then some exactTotalError else none
        else if stype = SplitType.percentage then
          if (1 : Rat) / 100 < |totalPercentage - 100| then some percentageTotalError
          else none
        else none

/-- Member list written by GroupForm.save (src/core/split/forms.py lines
61-73): the selected members with the creator appended
(`members.append(self.user); instance.members.set(members)`). -/
def groupFormMembers (selected : List Nat) (creator : Nat) : List Nat :=
  selected ++ [creator]

/-- GroupForm.save with commit (src/core/split/forms.py lines 61-73): the
saved group carries the form fields, `created_by = self.user`, and the
member set `groupFormMembers` (GroupForm.__init__ excludes the creator
from the selectable queryset; the save appends the creator itself). -/
def groupFormSave (creator : Nat) (gname gdesc : String) (selected : List Nat)
    (currency : String) (gid : Nat) : Group :=
  { id := gid, name := gname, description := gdesc, createdBy := creator
    members := groupFormMembers selected creator
    defaultCurrency := currency, isActive := true }

/-! General list-sum lemmas used by the balance proofs. -/

theorem sum_map_ite_filter {α : Type} (l : List α) (p : α → Bool) (v : α → Int) :
    ((l.filter p).map v).sum = (l.map (fun x => if p x then v x else 0)).sum := by
  induction l with
  | nil => rfl
  | cons x xs ih =>
      by_cases hx : p x = true
      · simp [List.filter_cons, hx, ih]
      · simp [List.filter_cons, hx, ih]

theorem sum_map_add {α : Type} (l : List α) (f g : α → Int) :
    (l.map (fun x => f x + g x)).sum = (l.map f).sum + (l.map g).sum := by
  induction l with
  | nil => rfl
  | cons x xs ih => simp [ih]; omega

theorem sum_map_sub {α : Type} (l : List α) (f g : α → Int) :
    (l.map (fun x => f x - g x)).sum = (l.map f).sum - (l.map g).sum := by
  induction l with
  | nil => rfl
  | cons x xs ih => simp [ih]; omega

theorem sum_map_zero {α : Type} (l : List α) :
    (l.map (fun _ => (0 : Int))).sum = 0 := by
  induction l with
  | nil => rfl
  | cons x xs ih => simp [ih]

theorem sum_map_congr {α : Type} (l : List α) (f g : α → Int)
    (h : ∀ x ∈ l, f x = g x) : (l.map f).sum = (l.map g).sum := by
  induction l with
  | nil => rfl
  | cons x xs ih =>
      simp only [List.map_cons, List.sum_cons]
      rw [h x (List.mem_cons_self x xs), ih (fun y hy => h y (List.mem_cons_of_mem x hy))]

theorem sum_ite_key (ms : List Nat) (hnd : ms.Nodup) (k : Nat) (c : Int) :
    (ms.map (fun m => if decide (k = m) then c else 0)).sum =
      if decide (k ∈ ms) then c else 0 := by
  induction ms with
  | nil => simp
  | cons m rest ih =>
      rcases List.nodup_cons.mp hnd with ⟨hm, hrest⟩
      simp only [List.map_cons, List.sum_cons]
      by_cases hk : k = m
      · subst hk
        have hnotin : (rest.map (fun m => if decide (k = m) then c else 0)).sum = 0 := by
          rw [sum_map_congr rest _ (fun _ => (0 : Int))
            (by intro y hy; have hne : k ≠ y := fun h => hm (h ▸ hy); simp [hne])]
          exact sum_map_zero rest
        rw [hnotin]
        simp
      · rw [ih hrest]
        by_cases hmem : k ∈ rest
        · simp [hmem, hk]
        · simp [hmem, hk]

theorem sum_swap_key {α : Type} (ms : List Nat) (hnd : ms.Nodup)
    (l : List α) (p : α → Bool) (key : α → Nat) (v : α → Int) :
    (ms.map (fun m => (l.map (fun x => if p x && decide (key x = m) then v x else 0)).sum)).sum =
      (l.map (fun x => if p x && decide (key x ∈ ms) then v x else 0)).sum := by
  induction l with
  | nil => simp
  | cons x xs ih =>
      simp only [List.map_cons, List.sum_cons]
      rw [sum_map_add ms
        (fun m => if p x && decide (key x = m) then v x else 0)
        (fun m => (xs.map (fun y => if p y && decide (key y = m) then v y else 0)).sum), ih]
      by_cases hp : p x = true
      · have h1 : (ms.map (fun m => if p x && decide (key x = m) then v x else 0)).sum =
            if decide (key x ∈ ms) then v x else 0 := by
          rw [sum_map_congr ms _ (fun m => if decide (key x = m) then v x else 0)
            (by intro m _; simp [hp])]
          exact sum_ite_key ms hnd (key x) (v x)
        rw [h1]
        simp [hp]
      · have hp' : p x = false := by simpa using hp
        have h1 : (ms.map (fun m => if p x && decide (key x = m) then v x else 0)).sum = 0 := by
          rw [sum_map_congr ms _ (fun _ => (0 : Int)) (by intro m _; simp [hp'])]
          exact sum_map_zero ms
        rw [h1]
        simp [hp']

theorem sum_ite_find {α : Type} (l : List α) (key : α → Nat)
    (hnd : (l.map key).Nodup) (k : Nat) (f : α → Int) :
    (l.map (fun x => if decide (key x = k) then f x else 0)).sum =
      (match l.find? (fun x => decide (key x = k)) with
        | some x => f x
        | none => 0) := by
  induction l with
  | nil => simp
  | cons x xs ih =>
      have hnd' : (key x :: xs.map key).Nodup := List.map_cons key x xs ▸ hnd
      rcases List.nodup_cons.mp hnd' with ⟨hm, hrest⟩
      by_cases hx : key x = k
      · have hz : (xs.map (fun y => if decide (key y = k) then f y else 0)).sum = 0 := by
          rw [sum_map_congr xs _ (fun _ => (0 : Int))
            (by intro y hy
                have hne : key y ≠ k := by
                  intro h
                  rw [← hx] at h
                  exact hm (h ▸ List.mem_map_of_mem key hy)
                simp [hne])]
          exact sum_map_zero xs
        have hf : (x :: xs).find? (fun y => decide (key y = k)) = some x :=
          List.find?_cons_of_pos _ (by simp [hx])
        simp only [List.map_cons, List.sum_cons, hf]
        rw [hz]
        simp [hx]
      · have hf : (x :: xs).find? (fun y => decide (key y = k)) =
            xs.find? (fun y => decide (key y = k)) :=
          List.find?_cons_of_neg _ (by simp [hx])
        simp only [List.map_cons, List.sum_cons, hf]
        rw [ih hrest]
        simp [hx]

theorem sum_comm {α β : Type} (l1 : List α) (l2 : List β) (f : α → β → Int) :
    (l1.map (fun a => (l2.map (f a)).sum)).sum =
      (l2.map (fun b => (l1.map (fun a => f a b)).sum)).sum := by
  induction l1 with
  | nil => simp [sum_map_zero]
  | cons a l1 ih =>
      simp only [List.map_cons, List.sum_cons]
      rw [ih, ← sum_map_add l2 (f a) (fun b => (l1.map (fun a => f a b)).sum)]

theorem abs_sum_le {α : Type} (l : List α) (f g : α → Int)
    (h : ∀ x ∈ l, |f x| ≤ g x) : |(l.map f).sum| ≤ (l.map g).sum := by
  induction l with
  | nil => simp
  | cons x xs ih =>
      simp only [List.map_cons, List.sum_cons]
      calc |f x + (xs.map f).sum| ≤ |f x| + |(xs.map f).sum| := abs_add _ _
        _ ≤ g x + (xs.map g).sum := by
            have h1 := h x (List.mem_cons_self x xs)
            have h2 := ih (fun y hy => h y (List.mem_cons_of_mem x hy))
            omega

theorem sum_ite_one {α : Type} (l : List α) (p : α → Bool) :
    (l.map (fun x => if p x then (1 : Int) else 0)).sum = ((l.filter p).length : Int) := by
  induction l with
  | nil => rfl
  | cons x xs ih =>
      by_cases hx : p x = true
      · simp only [List.map_cons, List.sum_cons, ih, List.filter_cons, hx, if_true,
          List.length_cons]
        push_cast
        omega
      · simp [List.filter_cons, hx, ih]

/-! Spec-side balance formulas (refinement targets).  These restate, in
the words of spec §4.3, what paid(m) and owed(m) are; the claims compare
them with the ORM computations embedded above. -/

/-- Spec §4.3: `paid(m) = Σ amount of GROUP expenses in the group where
payer = m`. -/
def paidSpec (st : State) (gid m : Nat) : Int :=
  (st.expenses.map (fun e =>
    if e.expenseType = ExpenseType.group ∧ e.groupId = some gid ∧ e.paidBy = m
    then e.amount else 0)).sum

/-- Spec §4.3: `owed(m) = Σ amount of allocations in the group where
user = m` (ALL_TIME: not filtered to open allocations). -/
def owedSpec (st : State) (gid m : Nat) : Int :=
  (st.splits.map (fun s =>
    if splitGroupId st s = some gid ∧ s.userId = m then s.amount else 0)).sum

theorem paidOf_eq_spec (st : State) (gid m : Nat) :
    paidOf st gid m = paidSpec st gid m := by
  unfold paidOf paidSpec
  rw [sum_map_ite_filter]
  apply sum_map_congr
  intro e _
  have hiff : (isGroupExpenseIn gid e && decide (e.paidBy = m)) = true ↔
      (e.expenseType = ExpenseType.group ∧ e.groupId = some gid ∧ e.paidBy = m) := by
    simp only [isGroupExpenseIn, Bool.and_eq_true, decide_eq_true_eq]
    tauto
  exact if_congr hiff rfl rfl

theorem owedAllOf_eq_spec (st : State) (gid m : Nat) :
    owedAllOf st gid m = owedSpec st gid m := by
  unfold owedAllOf owedSpec
  rw [sum_map_ite_filter]
  apply sum_map_congr
  intro s _
  have hiff : ((decide (splitGroupId st s = some gid) && decide (s.userId = m))) = true ↔
      (splitGroupId st s = some gid ∧ s.userId = m) := by
    simp only [Bool.and_eq_true, decide_eq_true_eq]
  exact if_congr hiff rfl rfl

/-- C6: for every group and member m of it, the group-balance computation
contains the row for m with paid(m) the sum of amounts of GROUP-type
expenses of the group paid by m, owed(m) the sum of allocation amounts in
the group whose user is m, and balance(m) = paid(m) − owed(m). -/
theorem groupBalances_formulas (st : State) (g : Group) (m : Nat)
    (hm : m ∈ g.members) :
    ({ member := m, paid := paidSpec st g.id m, owed := owedSpec st g.id m
       balance := paidSpec st g.id m - owedSpec st g.id m } : MemberBalance) ∈
      calculate_group_balances st g := by
  rw [← paidOf_eq_spec, ← owedAllOf_eq_spec]
  unfold calculate_group_balances
  exact List.mem_map_of_mem _ hm

/-- Concrete store used by the witness of `groupBalances_formulas`. -/
def c6Group : Group :=
  { id := 0, name := "trip", description := "", createdBy := 1
    members := [1, 2], defaultCurrency := "INR", isActive := true }

/-- Concrete store used by the witness of `groupBalances_formulas`:
one 30.00 group expense paid by user 1, split 15.00 / 15.00. -/
def c6State : State :=
  { groups := [c6Group]
    expenses := [{ id := 0, description := "fuel", amount := 3000
                   expenseType := ExpenseType.group, user := 1, groupId := some 0
                   paidBy := 1, category := 0, date := 0, notes := "" }]
    splits := [{ id := 0, expenseId := 0, userId := 1, splitType := SplitType.equal
                 amount := 1500, percentage := none, shares := none, isSettled := false },
               { id := 1, expenseId := 0, userId := 2, splitType := SplitType.equal
                 amount := 1500, percentage := none, shares := none, isSettled := false }]
    settlements := [], splitSeq := 2, settlementSeq := 0 }

/-- Witness for C6 at a concrete store and member. -/
theorem groupBalances_formulas_witness :
    ({ member := 1, paid := paidSpec c6State 0 1, owed := owedSpec c6State 0 1
       balance := paidSpec c6State 0 1 - owedSpec c6State 0 1 } : MemberBalance) ∈
      calculate_group_balances c6State c6Group :=
  groupBalances_formulas c6State c6Group 1 (by decide)

/-- C9: every group saved through the group form has a non-empty member
set that contains the creator, whatever members were selected (the
creator is appended by `GroupForm.save` itself and is excluded from the
selectable queryset by `GroupForm.__init__`). -/
theorem groupForm_creator_member (creator : Nat) (gname gdesc currency : String)
    (selected : List Nat) (gid : Nat) :
    creator ∈ (groupFormSave creator gname gdesc selected currency gid).members ∧
      (groupFormSave creator gname gdesc selected currency gid).members ≠ [] := by
  unfold groupFormSave groupFormMembers
  constructor
  · simp
  · simp

/-- C8: a settlement request with payer = payee is always rejected, and —
when both parties pass the member-queryset check and the amount passes the
positivity validator — the rejection is exactly the self-settlement
(ConflictError) message; in general a settlement is accepted iff payer and
payee differ, both are group members, and the amount is at least one
cent. -/
theorem settlement_validation (ms : List Nat) (pb pt : Nat) (amt : Int) :
    (validateSettlement ms pb pb amt).isSome = true ∧
      (pb ∈ ms → 1 ≤ amt → validateSettlement ms pb pb amt = some selfSettlementError) ∧
      (validateSettlement ms pb pt amt = none ↔
        (pb ≠ pt ∧ pb ∈ ms ∧ pt ∈ ms ∧ 1 ≤ amt)) := by
  refine ⟨?_, ?_, ?_⟩
  · unfold validateSettlement
    by_cases h1 : pb ∈ ms
    · by_cases h2 : amt < 1
      · simp [h1, h2]
      · simp [h1, h2]
    · simp [h1]
  · intro hmem hamt
    have hlt : ¬ amt < 1 := by omega
    unfold validateSettlement
    simp [hmem, hlt]
  · unfold validateSettlement
    by_cases h1 : pb ∈ ms
    · by_cases h2 : pt ∈ ms
      · by_cases h3 : amt < 1
        · simp [h1, h2, h3]
        · by_cases h4 : pb = pt
          · simp [h1, h2, h3, h4]
          · simp [h1, h2, h3, h4]
            omega
      · simp [h1, h2]
    · simp [h1]

/-- Witness for C8: self-settlement by a valid member is rejected with the
self-settlement error, and a well-formed settlement is accepted. -/
theorem settlement_validation_witness :
    validateSettlement [1, 2] 1 1 500 = some selfSettlementError ∧
      validateSettlement [1, 2] 1 2 500 = none :=
  ⟨(settlement_validation [1, 2] 1 1 500).2.1 (by decide) (by decide),
   (settlement_validation [1, 2] 1 2 500).2.2.mpr (by decide)⟩

/-! Helper lemmas about filtering split tables. -/

theorem filter_not_filter {α : Type} (l : List α) (p : α → Bool) :
    (l.filter (fun x => !p x)).filter p = [] := by
  induction l with
  | nil => rfl
  | cons x xs ih =>
      by_cases hx : p x = true
      · simp [List.filter_cons, hx, ih]
      · simp [List.filter_cons, hx, ih]

theorem filter_ne_comm {α : Type} (l : List α) (key : α → Nat) (eid k : Nat)
    (hne : k ≠ eid) :
    (l.filter (fun x => !decide (key x = eid))).filter (fun x => decide (key x = k)) =
      l.filter (fun x => decide (key x = k)) := by
  induction l with
  | nil => rfl
  | cons x xs ih =>
      have hek : ¬ (eid = k) := fun h => hne h.symm
      by_cases hk : key x = k
      · have heid : ¬ key x = eid := by rw [hk]; exact hne
        simp [List.filter_cons, hk, heid, hne, hek, ih]
      · by_cases heid : key x = eid
        · simp [List.filter_cons, hk, heid, hne, hek, ih]
        · simp [List.filter_cons, hk, heid, hne, hek, ih]

theorem mkEqualSplits_filter_self (eid : Nat) (amt : Int) (stype : SplitType)
    (sid : Nat) (ms : List Nat) :
    (mkEqualSplits eid amt stype sid ms).filter (fun s => decide (s.expenseId = eid)) =
      mkEqualSplits eid amt stype sid ms := by
  induction ms generalizing sid with
  | nil => rfl
  | cons m rest ih => simp [mkEqualSplits, List.filter_cons, ih]

theorem mkEqualSplits_filter_other (eid : Nat) (amt : Int) (stype : SplitType)
    (sid : Nat) (ms : List Nat) (k : Nat) (hne : k ≠ eid) :
    (mkEqualSplits eid amt stype sid ms).filter (fun s => decide (s.expenseId = k)) = [] := by
  induction ms generalizing sid with
  | nil => rfl
  | cons m rest ih =>
      have hk : ¬ (eid = k) := fun h => hne h.symm
      simp [mkEqualSplits, List.filter_cons, hk, ih]

/-- C4: the allocate operation is atomic per expense.  An invalid call
returns the store unchanged; a valid call leaves every other table and
every other expense allocation set unchanged, and the allocation set of
the target expense afterwards is exactly the newly created set (the prior
set is discarded). -/
theorem allocate_atomic (st : State) (g : Group) (e : Expense) (stype : SplitType)
    (ms : List Nat) :
    ((allocate st g e stype ms).1 = false → (allocate st g e stype ms).2.2 = st) ∧
      ((allocate st g e stype ms).1 = true →
        (allocate st g e stype ms).2.2.expenses = st.expenses ∧
        (allocate st g e stype ms).2.2.groups = st.groups ∧
        (allocate st g e stype ms).2.2.settlements = st.settlements ∧
        splitsOf (allocate st g e stype ms).2.2 e.id = (allocate st g e stype ms).2.1 ∧
        (∀ k, k ≠ e.id →
          splitsOf (allocate st g e stype ms).2.2 k = splitsOf st k)) := by
  by_cases hv : simpleSplitValid g ms = true
  · have hall : allocate st g e stype ms =
        (true, (simpleSplitSave st e stype ms).1, (simpleSplitSave st e stype ms).2) := by
      simp [allocate, hv]
    rw [hall]
    refine ⟨by intro h; exact absurd h (by simp), fun _ => ?_⟩
    by_cases hst : stype = SplitType.equal
    · subst hst
      have hsave : simpleSplitSave st e SplitType.equal ms =
          (mkEqualSplits e.id ((divRoundHalfEven e.amount.toNat ms.length : Nat) : Int)
              SplitType.equal st.splitSeq ms,
            { st with
                splits := st.splits.filter (fun s => !decide (s.expenseId = e.id)) ++
                  mkEqualSplits e.id ((divRoundHalfEven e.amount.toNat ms.length : Nat) : Int)
                    SplitType.equal st.splitSeq ms
                splitSeq := st.splitSeq + ms.length }) := by
        simp [simpleSplitSave]
      rw [hsave]
      refine ⟨rfl, rfl, rfl, ?_, ?_⟩
      · unfold splitsOf
        rw [List.filter_append, filter_not_filter, mkEqualSplits_filter_self]
        rfl
      · intro k hk
        unfold splitsOf
        rw [List.filter_append, mkEqualSplits_filter_other _ _ _ _ _ _ hk,
          filter_ne_comm _ _ _ _ hk]
        simp
    · have hsave : simpleSplitSave st e stype ms =
          ([], { st with splits := st.splits.filter (fun s => !decide (s.expenseId = e.id)) }) := by
        simp [simpleSplitSave, hst]
      rw [hsave]
      refine ⟨rfl, rfl, rfl, ?_, ?_⟩
      · unfold splitsOf
        exact filter_not_filter st.splits (fun s => decide (s.expenseId = e.id))
      · intro k hk
        unfold splitsOf
        exact filter_ne_comm st.splits (fun s => s.expenseId) e.id k hk
  · have hall : allocate st g e stype ms = (false, [], st) := by
      simp [allocate, hv]
    rw [hall]
    exact ⟨fun _ => rfl, by intro h; exact absurd h (by simp)⟩

/-- Group used by the witnesses of the allocate claims. -/
def c4Group : Group :=
  { id := 1, name := "flat", description := "", createdBy := 1
    members := [1, 2], defaultCurrency := "INR", isActive := true }

/-- Expense used by the witnesses of the allocate claims. -/
def c4Expense : Expense :=
  { id := 9, description := "rent", amount := 20000
    expenseType := ExpenseType.group, user := 1, groupId := some 1
    paidBy := 1, category := 0, date := 0, notes := "" }

/-- Store used by the witnesses of the allocate claims: expense 9 already
has one (stale) split for user 2. -/
def c4State : State :=
  { groups := [c4Group]
    expenses := [c4Expense]
    splits := [{ id := 0, expenseId := 9, userId := 2, splitType := SplitType.equal
                 amount := 20000, percentage := none, shares := none, isSettled := false }]
    settlements := [], splitSeq := 1, settlementSeq := 0 }

/-- Witness for C4: an invalid call (empty member selection) leaves the
store untouched, and a valid EQUAL call replaces the allocation set of the
expense with the newly created one. -/
theorem allocate_atomic_witness :
    (allocate c4State c4Group c4Expense SplitType.equal []).2.2 = c4State ∧
      splitsOf (allocate c4State c4Group c4Expense SplitType.equal [1, 2]).2.2 c4Expense.id =
        (allocate c4State c4Group c4Expense SplitType.equal [1, 2]).2.1 :=
  ⟨(allocate_atomic c4State c4Group c4Expense SplitType.equal []).1 (by decide),
   ((allocate_atomic c4State c4Group c4Expense SplitType.equal [1, 2]).2 (by decide)).2.2.2.1⟩

/-- C10: a valid split-form submission with any split type other than
EQUAL deletes every existing split of the expense, creates none, and
returns the empty list: afterwards the split table is exactly the old one
with the expense rows removed. -/
theorem nonEqual_save_clears (st : State) (g : Group) (e : Expense)
    (stype : SplitType) (ms : List Nat) (hv : simpleSplitValid g ms = true)
    (hne : stype ≠ SplitType.equal) :
    (allocate st g e stype ms).2.1 = [] ∧
      splitsOf (allocate st g e stype ms).2.2 e.id = [] ∧
      (allocate st g e stype ms).2.2.splits =
        st.splits.filter (fun s => !decide (s.expenseId = e.id)) := by
  have hall : allocate st g e stype ms =
      (true, [], { st with splits := st.splits.filter (fun s => !decide (s.expenseId = e.id)) }) := by
    simp [allocate, hv, simpleSplitSave, hne]
  rw [hall]
  refine ⟨rfl, ?_, rfl⟩
  unfold splitsOf
  exact filter_not_filter st.splits (fun s => decide (s.expenseId = e.id))

/-- Witness for C10 at a concrete EXACT-type submission. -/
theorem nonEqual_save_clears_witness :
    (allocate c4State c4Group c4Expense SplitType.exact [1, 2]).2.1 = [] ∧
      splitsOf (allocate c4State c4Group c4Expense SplitType.exact [1, 2]).2.2 c4Expense.id = [] ∧
      (allocate c4State c4Group c4Expense SplitType.exact [1, 2]).2.2.splits =
        c4State.splits.filter (fun s => !decide (s.expenseId = c4Expense.id)) :=
  nonEqual_save_clears c4State c4Group c4Expense SplitType.exact [1, 2] (by decide) (by decide)

/-- Group for the EQUAL-split rounding evaluation. -/
def c1Group : Group :=
  { id := 2, name := "goa", description := "", createdBy := 1
    members := [1, 2, 3], defaultCurrency := "INR", isActive := true }

/-- Expense for the EQUAL-split rounding evaluation: 100.00. -/
def c1Expense : Expense :=
  { id := 4, description := "hotel", amount := 10000
    expenseType := ExpenseType.group, user := 1, groupId := some 2
    paidBy := 1, category := 0, date := 0, notes := "" }

/-- Store for the EQUAL-split rounding evaluation. -/
def c1State : State :=
  { groups := [c1Group], expenses := [c1Expense], splits := []
    settlements := [], splitSeq := 0, settlementSeq := 0 }

/-- C1 evaluation: splitting the 100.00 expense equally among the three
members stores 33.33 for every member — the allocation amounts sum to
99.99, one cent short of the expense amount.  The save applies no
remainder-distribution rule: every participant receives the same rounded
quotient. -/
theorem equalSplit_rounding_short :
    ((simpleSplitSave c1State c1Expense SplitType.equal [1, 2, 3]).1.map
        (fun s => s.amount)) = [3333, 3333, 3333] ∧
      (((simpleSplitSave c1State c1Expense SplitType.equal [1, 2, 3]).1.map
        (fun s => s.amount)).sum = 9999) ∧
      c1Expense.amount = 10000 := by
  decide

theorem sum_filter_partition {α : Type} (l : List α) (p q : α → Bool) (v : α → Int) :
    ((l.filter (fun x => p x && !q x)).map v).sum +
      ((l.filter (fun x => p x && q x)).map v).sum =
      ((l.filter p).map v).sum := by
  induction l with
  | nil => rfl
  | cons x xs ih =>
      by_cases hp : p x = true
      · by_cases hq : q x = true
        · simp only [List.filter_cons, hp, hq, Bool.not_true, Bool.and_false, Bool.and_true,
            Bool.false_eq_true, if_false, if_true, List.map_cons, List.sum_cons]
          omega
        · have hq' : q x = false := by simpa using hq
          simp only [List.filter_cons, hp, hq', Bool.not_false, Bool.and_false, Bool.and_true,
            Bool.false_eq_true, if_false, if_true, List.map_cons, List.sum_cons]
          omega
      · have hp' : p x = false := by simpa using hp
        simp only [List.filter_cons, hp', Bool.false_and, Bool.false_eq_true, if_false]
        exact ih

theorem owedOpenOf_congr (st st' : State) (hs : st'.splits = st.splits)
    (he : st'.expenses = st.expenses) (gid u : Nat) :
    owedOpenOf st' gid u = owedOpenOf st gid u := by
  unfold owedOpenOf splitGroupId findExpense
  simp only [hs, he]

/-- C2 amended: recording a settlement (with any set of allocation
references) changes no split row — in particular no `is_settled` flag —
and leaves the expense table unchanged, so every subsequent
OUTSTANDING-mode owed aggregate is unchanged as well; OUTSTANDING owed
excludes exactly the allocations whose `is_settled` flag is set, in the
sense that open owed plus settled owed equals ALL_TIME owed. -/
theorem settlement_leaves_allocations (st : State) (g : Group) (pb pt : Nat)
    (amt : Int) (d : Nat) (me no : String) (refs : List Nat) :
    ((recordSettlement st g pb pt amt d me no refs).2).splits = st.splits ∧
      ((recordSettlement st g pb pt amt d me no refs).2).expenses = st.expenses ∧
      (∀ gid u, owedOpenOf ((recordSettlement st g pb pt amt d me no refs).2) gid u =
        owedOpenOf st gid u) ∧
      (∀ gid u, owedOpenOf st gid u +
          ((st.splits.filter (fun s =>
            (decide (splitGroupId st s = some gid) && decide (s.userId = u)) &&
              s.isSettled)).map (fun s => s.amount)).sum =
        owedAllOf st gid u) := by
  have hsplits : ((recordSettlement st g pb pt amt d me no refs).2).splits = st.splits := by
    unfold recordSettlement
    cases validateSettlement g.members pb pt amt <;> rfl
  have hexp : ((recordSettlement st g pb pt amt d me no refs).2).expenses = st.expenses := by
    unfold recordSettlement
    cases validateSettlement g.members pb pt amt <;> rfl
  refine ⟨hsplits, hexp, ?_, ?_⟩
  · intro gid u
    exact owedOpenOf_congr st _ hsplits hexp gid u
  · intro gid u
    unfold owedOpenOf owedAllOf
    exact sum_filter_partition st.splits
      (fun s => decide (splitGroupId st s = some gid) && decide (s.userId = u))
      (fun s => s.isSettled) (fun s => s.amount)

/-- Group of the C2 counterexample. -/
def c2Group : Group :=
  { id := 0, name := "room", description := "", createdBy := 1
    members := [1, 2], defaultCurrency := "INR", isActive := true }

/-- Store of the C2 counterexample: one 5.00 expense paid by user 1,
wholly allocated to user 2 (split id 5, open). -/
def c2State : State :=
  { groups := [c2Group]
    expenses := [{ id := 0, description := "cab", amount := 500
                   expenseType := ExpenseType.group, user := 1, groupId := some 0
                   paidBy := 1, category := 0, date := 0, notes := "" }]
    splits := [{ id := 5, expenseId := 0, userId := 2, splitType := SplitType.equal
                 amount := 500, percentage := none, shares := none, isSettled := false }]
    settlements := [], splitSeq := 6, settlementSeq := 0 }

/-- C2 counterexample: a settlement recorded with the non-empty allocation
reference set [5] is accepted and stores the reference, yet allocation 5
is still open afterwards (`is_settled` remains false) and the subsequent
OUTSTANDING-mode owed aggregate for its user still includes its full
amount — the referenced allocation is never marked closed. -/
theorem settlement_refs_not_closed :
    (recordSettlement c2State c2Group 2 1 500 0 "upi" "" [5]).1 = none ∧
      ((recordSettlement c2State c2Group 2 1 500 0 "upi" "" [5]).2).settlements.map
        (fun s => s.expenseSplits) = [[5]] ∧
      (∃ s ∈ ((recordSettlement c2State c2Group 2 1 500 0 "upi" "" [5]).2).splits,
        s.id = 5 ∧ s.isSettled = false) ∧
      owedOpenOf ((recordSettlement c2State c2Group 2 1 500 0 "upi" "" [5]).2) 0 2 = 500 := by
  decide

/-- Group of the C5 counterexample. -/
def c5Group : Group :=
  { id := 3, name := "trek", description := "", createdBy := 1
    members := [1, 2], defaultCurrency := "INR", isActive := true }

/-- Store of the C5 counterexample: user 1 paid a 10.00 group expense that
is allocated entirely to user 2; user 1 has no allocation rows at all. -/
def c5State : State :=
  { groups := [c5Group]
    expenses := [{ id := 0, description := "bus", amount := 1000
                   expenseType := ExpenseType.group, user := 1, groupId := some 3
                   paidBy := 1, category := 0, date := 0, notes := "" }]
    splits := [{ id := 0, expenseId := 0, userId := 2, splitType := SplitType.equal
                 amount := 1000, percentage := none, shares := none, isSettled := false }]
    settlements := [], splitSeq := 1, settlementSeq := 0 }

/-- C5 counterexample: user 1 has no open allocation in any group (indeed
no allocation row at all), yet the per-user balance computation returns a
non-empty list, because the user paid a group expense. -/
theorem userBalances_not_empty_for_payer :
    (∀ s ∈ c5State.splits, s.userId ≠ 1) ∧
      calculate_user_balances c5State 1 ≠ [] := by
  decide

/-- C5 amended: the per-user balance computation returns the empty list
when the user has zero paid total and zero open owed total in every
active group containing the user; and in general every returned entry has
a nonzero OUTSTANDING balance. -/
theorem userBalances_amended (st : State) (u : Nat) :
    ((∀ g ∈ st.groups, g.isActive = true → u ∈ g.members →
        paidOf st g.id u = 0 ∧ owedOpenOf st g.id u = 0) →
      calculate_user_balances st u = []) ∧
      (∀ b ∈ calculate_user_balances st u, b.balance ≠ 0) := by
  constructor
  · intro h
    unfold calculate_user_balances
    rw [List.filterMap_eq_nil_iff]
    intro g hg
    rcases List.mem_filter.mp hg with ⟨hgin, hcond⟩
    have hcond' : u ∈ g.members ∧ g.isActive = true := by
      simpa only [Bool.and_eq_true, decide_eq_true_eq] using hcond
    rcases h g hgin hcond'.2 hcond'.1 with ⟨hp, ho⟩
    show (if (paidOf st g.id u - owedOpenOf st g.id u) ≠ 0 then
        some ({ groupId := g.id, balance := paidOf st g.id u - owedOpenOf st g.id u
                status := if 0 < paidOf st g.id u - owedOpenOf st g.id u then "owed"
                  else "owes" } : UserBalance)
      else none) = none
    rw [hp, ho]
    simp
  · intro b hb
    unfold calculate_user_balances at hb
    rcases List.mem_filterMap.mp hb with ⟨g, _, hfg⟩
    by_cases hbal : (paidOf st g.id u - owedOpenOf st g.id u) ≠ 0
    · have hsome : (if (paidOf st g.id u - owedOpenOf st g.id u) ≠ 0 then
          some ({ groupId := g.id, balance := paidOf st g.id u - owedOpenOf st g.id u
                  status := if 0 < paidOf st g.id u - owedOpenOf st g.id u then "owed"
                    else "owes" } : UserBalance)
        else none) = some b := hfg
      rw [if_pos hbal] at hsome
      have hb' := Option.some.inj hsome
      rw [← hb']
      exact hbal
    · have hnone : (if (paidOf st g.id u - owedOpenOf st g.id u) ≠ 0 then
          some ({ groupId := g.id, balance := paidOf st g.id u - owedOpenOf st g.id u
                  status := if 0 < paidOf st g.id u - owedOpenOf st g.id u then "owed"
                    else "owes" } : UserBalance)
        else none) = some b := hfg
      rw [if_neg hbal] at hnone
      exact Option.noConfusion hnone

/-- Store for the C5 witness: one active group containing user 1, with no
expenses and no splits at all. -/
def c5wState : State :=
  { groups := [{ id := 0, name := "new", description := "", createdBy := 1
                 members := [1, 2], defaultCurrency := "INR", isActive := true }]
    expenses := [], splits := [], settlements := [], splitSeq := 0, settlementSeq := 0 }

/-- Witness for the amended C5 at a concrete store. -/
theorem userBalances_amended_witness :
    calculate_user_balances c5wState 1 = [] :=
  (userBalances_amended c5wState 1).1 (by decide)

theorem dupUser_eq_false_of_nodup (l : List Nat) (h : l.Nodup) : dupUser l = false := by
  induction l with
  | nil => rfl
  | cons u rest ih =>
      rcases List.nodup_cons.mp h with ⟨hm, hrest⟩
      simp [dupUser, hm, ih hrest]

/-- C7 amended: for a PERCENTAGE split over duplicate-free participants,
the formset clean accepts exactly the submissions whose percentage total
is within 0.01 of 100.00, and any larger deviation is rejected with the
formset-level percentage ValidationError (which is not attached to the
percentage field). -/
theorem percentage_tolerance (ea : Int) (rows : List SplitFormRow)
    (hnd : ((rows.filter (fun f => !f.deleteFlag)).map (fun f => f.user)).Nodup) :
    (formsetClean SplitType.percentage (some ea) rows = none ↔
      |((rows.filter (fun f => !f.deleteFlag)).map (fun f => f.percentage.getD 0)).sum - 100| ≤
        (1 : Rat) / 100) ∧
      ((1 : Rat) / 100 <
          |((rows.filter (fun f => !f.deleteFlag)).map (fun f => f.percentage.getD 0)).sum - 100| →
        formsetClean SplitType.percentage (some ea) rows = some percentageTotalError) := by
  have hdup : dupUser ((rows.filter (fun f => !f.deleteFlag)).map (fun f => f.user)) = false :=
    dupUser_eq_false_of_nodup _ hnd
  have hclean : formsetClean SplitType.percentage (some ea) rows =
      (if (1 : Rat) / 100 <
          |((rows.filter (fun f => !f.deleteFlag)).map (fun f => f.percentage.getD 0)).sum - 100|
        then some percentageTotalError else none) := by
    simp only [formsetClean, hdup]
    simp
  constructor
  · rw [hclean]
    by_cases hlt : (1 : Rat) / 100 <
        |((rows.filter (fun f => !f.deleteFlag)).map (fun f => f.percentage.getD 0)).sum - 100|
    · rw [if_pos hlt]
      constructor
      · intro h
        exact absurd h (by simp)
      · intro hle
        exact absurd hle (not_le.mpr hlt)
    · rw [if_neg hlt]
      constructor
      · intro _
        exact not_lt.mp hlt
      · intro _
        rfl
  · intro hlt
    rw [hclean, if_pos hlt]

/-- Rows of the C7 witness: two distinct users at 50.00 percent each. -/
def c7AcceptRows : List SplitFormRow :=
  [{ user := 1, amount := none, percentage := some 50, shares := none, deleteFlag := false },
   { user := 2, amount := none, percentage := some 50, shares := none, deleteFlag := false }]

theorem c7AcceptRows_tol :
    |((c7AcceptRows.filter (fun f => !f.deleteFlag)).map
      (fun f => f.percentage.getD 0)).sum - 100| ≤ (1 : Rat) / 100 := by
  have hsum : ((c7AcceptRows.filter (fun f => !f.deleteFlag)).map
      (fun f => f.percentage.getD 0)).sum = (100 : Rat) := by
    norm_num [c7AcceptRows]
  rw [hsum, sub_self, abs_zero]
  norm_num

/-- Witness for the amended C7: a 50.00 / 50.00 percentage split is
accepted. -/
theorem percentage_tolerance_witness :
    formsetClean SplitType.percentage (some 10000) c7AcceptRows = none :=
  (percentage_tolerance 10000 c7AcceptRows (by decide)).1.mpr c7AcceptRows_tol

/-- Rows of the C7 counterexample: two distinct users at 49.99 percent
each, so the total 99.98 deviates from 100.00 by more than 0.01. -/
def c7RejectRows : List SplitFormRow :=
  [{ user := 1, amount := none, percentage := some ((4999 : Rat) / 100), shares := none
     deleteFlag := false },
   { user := 2, amount := none, percentage := some ((4999 : Rat) / 100), shares := none
     deleteFlag := false }]

/-- C7 counterexample: the 99.98 percentage split is rejected, but the
raised ValidationError is a formset-level error carrying no field name at
all — it does not name the percentage field (unlike the field-keyed
errors raised elsewhere in the same module). -/
theorem percentage_error_not_field_named :
    formsetClean SplitType.percentage (some 10000) c7RejectRows = some percentageTotalError ∧
      percentageTotalError.field = none ∧
      (1 : Rat) / 100 <
        |((c7RejectRows.filter (fun f => !f.deleteFlag)).map
          (fun f => f.percentage.getD 0)).sum - 100| := by
  have hdup : dupUser ((c7RejectRows.filter (fun f => !f.deleteFlag)).map
      (fun f => f.user)) = false := by decide
  have hsum : ((c7RejectRows.filter (fun f => !f.deleteFlag)).map
      (fun f => f.percentage.getD 0)).sum = (4999 : Rat) / 50 := by
    norm_num [c7RejectRows]
  have habs : |((4999 : Rat) / 50) - 100| = (1 : Rat) / 50 := by
    rw [abs_of_neg (by norm_num)]
    norm_num
  have hlt : (1 : Rat) / 100 <
      |((c7RejectRows.filter (fun f => !f.deleteFlag)).map
        (fun f => f.percentage.getD 0)).sum - 100| := by
    rw [hsum, habs]
    norm_num
  refine ⟨?_, rfl, hlt⟩
  have hclean : formsetClean SplitType.percentage (some 10000) c7RejectRows =
      (if (1 : Rat) / 100 <
          |((c7RejectRows.filter (fun f => !f.deleteFlag)).map
            (fun f => f.percentage.getD 0)).sum - 100|
        then some percentageTotalError else none) := by
    simp only [formsetClean, hdup]
    simp
  rw [hclean, if_pos hlt]

/-- Sum of the balance column of the group-balance computation. -/
def balancesTotal (st : State) (g : Group) : Int :=
  ((calculate_group_balances st g).map (fun b => b.balance)).sum

/-- Sum of the allocation amounts recorded for one expense. -/
def splitsSumOf (st : State) (eid : Nat) : Int :=
  ((st.splits.filter (fun s => decide (s.expenseId = eid))).map (fun s => s.amount)).sum

/-- Number of expense rows linked to the group. -/
def groupExpenseCount (st : State) (gid : Nat) : Nat :=
  (st.expenses.filter (fun e => decide (e.groupId = some gid))).length

theorem paidOf_ite (st : State) (gid m : Nat) :
    paidOf st gid m =
      (st.expenses.map (fun e =>
        if isGroupExpenseIn gid e && decide (e.paidBy = m) then e.amount else 0)).sum := by
  unfold paidOf
  exact sum_map_ite_filter st.expenses
    (fun e => isGroupExpenseIn gid e && decide (e.paidBy = m)) (fun e => e.amount)

theorem owedAllOf_ite (st : State) (gid m : Nat) :
    owedAllOf st gid m =
      (st.splits.map (fun s =>
        if decide (splitGroupId st s = some gid) && decide (s.userId = m)
        then s.amount else 0)).sum := by
  unfold owedAllOf
  exact sum_map_ite_filter st.splits
    (fun s => decide (splitGroupId st s = some gid) && decide (s.userId = m))
    (fun s => s.amount)

/-- C3 amended: for any group whose members are duplicate-free, whose
expense rows have distinct ids, whose group-linked expenses are GROUP
expenses paid by members, whose in-group allocations belong to members,
and whose every group-linked expense reconciles within one cent, the
ALL_TIME balances sum to zero within one cent per group expense — the
per-expense tolerances accumulate, they are not bounded by a single
0.01. -/
theorem allTime_balances_bound (st : State) (g : Group)
    (hnd : g.members.Nodup)
    (hids : (st.expenses.map (fun e => e.id)).Nodup)
    (hexp : ∀ e ∈ st.expenses, e.groupId = some g.id →
      e.expenseType = ExpenseType.group ∧ e.paidBy ∈ g.members)
    (hsplit : ∀ s ∈ st.splits, splitGroupId st s = some g.id → s.userId ∈ g.members)
    (hrec : ∀ e ∈ st.expenses, e.groupId = some g.id →
      |splitsSumOf st e.id - e.amount| ≤ 1) :
    |balancesTotal st g| ≤ (groupExpenseCount st g.id : Int) := by
  have h0 : balancesTotal st g =
      (g.members.map (fun m => paidOf st g.id m - owedAllOf st g.id m)).sum := by
    unfold balancesTotal calculate_group_balances
    rw [List.map_map]
    rfl
  have hA : (g.members.map (fun m => paidOf st g.id m)).sum =
      (st.expenses.map (fun e =>
        if decide (e.groupId = some g.id) then e.amount else 0)).sum := by
    calc (g.members.map (fun m => paidOf st g.id m)).sum
        = (g.members.map (fun m => (st.expenses.map (fun e =>
            if isGroupExpenseIn g.id e && decide (e.paidBy = m) then e.amount else 0)).sum)).sum := by
          exact sum_map_congr g.members _ _ (fun m _ => paidOf_ite st g.id m)
      _ = (st.expenses.map (fun e =>
            if isGroupExpenseIn g.id e && decide (e.paidBy ∈ g.members)
            then e.amount else 0)).sum :=
          sum_swap_key g.members hnd st.expenses (isGroupExpenseIn g.id)
            (fun e => e.paidBy) (fun e => e.amount)
      _ = (st.expenses.map (fun e =>
            if decide (e.groupId = some g.id) then e.amount else 0)).sum := by
          apply sum_map_congr
          intro e he
          by_cases hg : e.groupId = some g.id
          · rcases hexp e he hg with ⟨ht, hp⟩
            have hbe : isGroupExpenseIn g.id e = true := by
              simp [isGroupExpenseIn, hg, ht]
            simp [hbe, hp, hg]
          · have hbe : isGroupExpenseIn g.id e = false := by
              simp [isGroupExpenseIn, hg]
            simp [hbe, hg]
  have hB1 : (g.members.map (fun m => owedAllOf st g.id m)).sum =
      (st.splits.map (fun s =>
        if decide (splitGroupId st s = some g.id) then s.amount else 0)).sum := by
    calc (g.members.map (fun m => owedAllOf st g.id m)).sum
        = (g.members.map (fun m => (st.splits.map (fun s =>
            if decide (splitGroupId st s = some g.id) && decide (s.userId = m)
            then s.amount else 0)).sum)).sum := by
          exact sum_map_congr g.members _ _ (fun m _ => owedAllOf_ite st g.id m)
      _ = (st.splits.map (fun s =>
            if decide (splitGroupId st s = some g.id) && decide (s.userId ∈ g.members)
            then s.amount else 0)).sum :=
          sum_swap_key g.members hnd st.splits
            (fun s => decide (splitGroupId st s = some g.id))
            (fun s => s.userId) (fun s => s.amount)
      _ = (st.splits.map (fun s =>
            if decide (splitGroupId st s = some g.id) then s.amount else 0)).sum := by
          apply sum_map_congr
          intro s hs
          by_cases hg : splitGroupId st s = some g.id
          · have hu := hsplit s hs hg
            simp [hg, hu]
          · simp [hg]
  have hR : ∀ e : Expense,
      (if decide (e.groupId = some g.id) then splitsSumOf st e.id else 0) =
        (st.splits.map (fun s =>
          if decide (e.groupId = some g.id) && decide (s.expenseId = e.id)
          then s.amount else 0)).sum := by
    intro e
    by_cases hg : e.groupId = some g.id
    · rw [if_pos (decide_eq_true hg)]
      have hsplitsum : splitsSumOf st e.id = (st.splits.map (fun s =>
          if decide (s.expenseId = e.id) then s.amount else 0)).sum := by
        unfold splitsSumOf
        exact sum_map_ite_filter st.splits (fun s => decide (s.expenseId = e.id))
          (fun s => s.amount)
      rw [hsplitsum]
      apply sum_map_congr
      intro s _
      rw [decide_eq_true hg]
      simp
    · rw [if_neg (by simp [hg])]
      rw [sum_map_congr st.splits _ (fun _ => (0 : Int))
        (by intro s _; simp [hg])]
      rw [sum_map_zero]
  have hB2 : (st.splits.map (fun s =>
      if decide (splitGroupId st s = some g.id) then s.amount else 0)).sum =
      (st.expenses.map (fun e =>
        if decide (e.groupId = some g.id) then splitsSumOf st e.id else 0)).sum := by
    rw [sum_map_congr st.expenses _ _ (fun e _ => hR e)]
    rw [sum_comm st.expenses st.splits (fun e s =>
      if decide (e.groupId = some g.id) && decide (s.expenseId = e.id) then s.amount else 0)]
    apply sum_map_congr
    intro s _
    have hstep : (st.expenses.map (fun e =>
        if decide (e.groupId = some g.id) && decide (s.expenseId = e.id)
        then s.amount else 0)).sum =
        (st.expenses.map (fun e =>
          if decide (e.id = s.expenseId)
          then (if decide (e.groupId = some g.id) then s.amount else 0) else 0)).sum := by
      apply sum_map_congr
      intro e _
      by_cases h1 : e.id = s.expenseId
      · have h1' : s.expenseId = e.id := h1.symm
        by_cases h2 : e.groupId = some g.id
        · rw [decide_eq_true h1, decide_eq_true h1', decide_eq_true h2]
          simp
        · have h2' : decide (e.groupId = some g.id) = false := by simp [h2]
          rw [decide_eq_true h1, decide_eq_true h1', h2']
          simp
      · have h1' : ¬ s.expenseId = e.id := fun h => h1 h.symm
        have hd1 : decide (e.id = s.expenseId) = false := by simp [h1]
        have hd2 : decide (s.expenseId = e.id) = false := by simp [h1']
        rw [hd1, hd2]
        simp
    rw [hstep,
      sum_ite_find st.expenses (fun e => e.id) hids s.expenseId
        (fun e => if decide (e.groupId = some g.id) then s.amount else 0)]
    unfold splitGroupId findExpense
    cases hf : st.expenses.find? (fun e => decide (e.id = s.expenseId)) with
    | none => simp
    | some e => simp
  have hmerge : (st.expenses.map (fun e =>
      if decide (e.groupId = some g.id) then e.amount else 0)).sum -
      (st.expenses.map (fun e =>
        if decide (e.groupId = some g.id) then splitsSumOf st e.id else 0)).sum =
      (st.expenses.map (fun e =>
        if decide (e.groupId = some g.id) then e.amount - splitsSumOf st e.id else 0)).sum := by
    rw [← sum_map_sub]
    apply sum_map_congr
    intro e _
    by_cases hg : e.groupId = some g.id
    · simp [hg]
    · simp [hg]
  have htotal : balancesTotal st g =
      (st.expenses.map (fun e =>
        if decide (e.groupId = some g.id) then e.amount - splitsSumOf st e.id else 0)).sum := by
    rw [h0, sum_map_sub, hA, hB1, hB2, hmerge]
  rw [htotal]
  have hbound : |(st.expenses.map (fun e =>
      if decide (e.groupId = some g.id) then e.amount - splitsSumOf st e.id else 0)).sum| ≤
      (st.expenses.map (fun e =>
        if decide (e.groupId = some g.id) then (1 : Int) else 0)).sum := by
    apply abs_sum_le
    intro e he
    by_cases hg : e.groupId = some g.id
    · have hr := hrec e he hg
      rw [abs_sub_comm] at hr
      simpa [hg] using hr
    · simp [hg]
  calc |(st.expenses.map (fun e =>
      if decide (e.groupId = some g.id) then e.amount - splitsSumOf st e.id else 0)).sum|
      ≤ (st.expenses.map (fun e =>
          if decide (e.groupId = some g.id) then (1 : Int) else 0)).sum := hbound
    _ = (groupExpenseCount st g.id : Int) := by
        unfold groupExpenseCount
        exact sum_ite_one st.expenses (fun e => decide (e.groupId = some g.id))

/-- Group of the C3 counterexample. -/
def c3Group : Group :=
  { id := 0, name := "pair", description := "", createdBy := 1
    members := [1, 2], defaultCurrency := "INR", isActive := true }

/-- Store of the C3 counterexample: two 0.03 group expenses paid by user
1, each allocated 0.01 / 0.01 to the two members — every expense
reconciles within 0.01 (each is one cent short), yet the cent drifts
add up across expenses. -/
def c3State : State :=
  { groups := [c3Group]
    expenses := [{ id := 0, description := "tea", amount := 3
                   expenseType := ExpenseType.group, user := 1, groupId := some 0
                   paidBy := 1, category := 0, date := 0, notes := "" },
                 { id := 1, description := "chai", amount := 3
                   expenseType := ExpenseType.group, user := 1, groupId := some 0
                   paidBy := 1, category := 0, date := 0, notes := "" }]
    splits := [{ id := 0, expenseId := 0, userId := 1, splitType := SplitType.exact
                 amount := 1, percentage := none, shares := none, isSettled := false },
               { id := 1, expenseId := 0, userId := 2, splitType := SplitType.exact
                 amount := 1, percentage := none, shares := none, isSettled := false },
               { id := 2, expenseId := 1, userId := 1, splitType := SplitType.exact
                 amount := 1, percentage := none, shares := none, isSettled := false },
               { id := 3, expenseId := 1, userId := 2, splitType := SplitType.exact
                 amount := 1, percentage := none, shares := none, isSettled := false }]
    settlements := [], splitSeq := 4, settlementSeq := 0 }

/-- C3 counterexample: every hypothesis of the claim holds — duplicate-free
members, well-formed group expenses paid by members, member allocations,
and every expense reconciling within 0.01 — yet the ALL_TIME balances sum
to 0.02, outside the claimed single 0.01 tolerance. -/
theorem allTime_balances_exceed_tolerance :
    c3Group.members.Nodup ∧
      (c3State.expenses.map (fun e => e.id)).Nodup ∧
      (∀ e ∈ c3State.expenses, e.groupId = some c3Group.id →
        e.expenseType = ExpenseType.group ∧ e.paidBy ∈ c3Group.members) ∧
      (∀ s ∈ c3State.splits, splitGroupId c3State s = some c3Group.id →
        s.userId ∈ c3Group.members) ∧
      (∀ e ∈ c3State.expenses, e.groupId = some c3Group.id →
        |splitsSumOf c3State e.id - e.amount| ≤ 1) ∧
      balancesTotal c3State c3Group = 2 ∧
      ¬ (|balancesTotal c3State c3Group| ≤ 1) := by
  decide

/-- Witness for the amended C3 at the concrete two-expense store: the
balance total is bounded by one cent per group expense. -/
theorem allTime_balances_bound_witness :
    |balancesTotal c3State c3Group| ≤ (groupExpenseCount c3State c3Group.id : Int) :=
  allTime_balances_bound c3State c3Group (by decide) (by decide) (by decide) (by decide)
    (by decide)

end SplitExpense
